import Mathlib

/-!
Verification of the hook-corpus lifecycle and video-composition pipeline of
`server.py` (Flask app of the `automation` repository).

The Python code is shallowly embedded: the two persisted JSON files
(`top_hooks.json`, `used_hooks.json`) are modelled by their parsed contents
(`Store`), randomness (`random.choice`, `os.urandom`) and the external
processes (`ffprobe`, `ffmpeg`) are oracle parameters (`Env`), and file-write
failures are modelled by boolean oracles.  String functions of Python
(`str.capitalize`, `textwrap.fill`) are modelled at the ASCII level.
-/

namespace Automation

/-- A hook record: one entry of `top_hooks.json` / `used_hooks.json`.
In the Python code these are JSON objects with a `text` key, an optional
`emotion` key (`h.get('emotion')` yields `None` when absent) and, for used
hooks, a `used_at` key. -/
structure HookRecord where
  text : String
  emotion : Option String
  used_at : Option String
deriving DecidableEq, Repr

/-- The parsed contents of the two persisted sequences:
`active` models `top_hooks.json`, `used` models `used_hooks.json`. -/
structure Store where
  active : List HookRecord
  used : List HookRecord
deriving DecidableEq, Repr

/-- Python `str.capitalize()` modelled at ASCII level: first character
uppercased, the remaining characters lowercased (server.py line 214,
`emotion.capitalize()`). -/
def py_capitalize (s : String) : String :=
  match s.data with
  | [] => ""
  | c :: cs => String.mk (c.toUpper :: cs.map Char.toLower)

/-- The normalization the SPEC describes for emotion comparison
(case-insensitive and trimmed).  This definition follows the words of the
spec, not the code, and is only used to compare the two. -/
def spec_normalize_emotion (s : String) : String :=
  String.mk ((((s.data.dropWhile Char.isWhitespace).reverse.dropWhile
    Char.isWhitespace).reverse).map Char.toLower)

/-- One parsed entry of the raw hooks JSON file: a bare string, a JSON
object (represented by the record it describes), or anything else. -/
inductive RawHook
  | str (s : String)
  | obj (r : HookRecord)
  | other
deriving DecidableEq

/-- The state of a backing JSON file: absent, unparseable, or parsed
content. -/
inductive FileState (α : Type)
  | absent
  | malformed
  | content (a : α)
deriving DecidableEq

/-- The per-entry normalization of `load_hooks` (server.py lines 38-43):
a bare string becomes an object with emotion `General`, a dict is kept
as is, anything else is skipped. -/
def normalize_hook : RawHook → Option HookRecord
  | .str s => some { text := s, emotion := some "General", used_at := none }
  | .obj r => some r
  | .other => none

/-- `load_hooks` (server.py lines 33-47): any failure (absent file,
malformed JSON) is caught and yields the empty list; otherwise each entry
is normalized. -/
def load_hooks : FileState (List RawHook) → List HookRecord
  | .absent => []
  | .malformed => []
  | .content hooks => hooks.filterMap normalize_hook

/-- `load_used_hooks` (server.py lines 49-57): an absent file yields the
empty list before any read is attempted; any other failure is caught and
also yields the empty list; otherwise the parsed list is returned as is. -/
def load_used_hooks : FileState (List HookRecord) → List HookRecord
  | .absent => []
  | .malformed => []
  | .content l => l

/-- `mark_hook_as_used` (server.py lines 59-82).  It reloads both
sequences (modelled by `st`), removes from the active sequence EVERY
record whose `text` equals `hook.text`, stamps the hook with a fresh
marker and prepends it to the used sequence, then writes the active file
and the used file in that order.  The whole body is wrapped in
`try/except`, so a failed first write (`saveActiveOk = false`) leaves both
files untouched, and a failed second write (`saveUsedOk = false`) leaves
the used file untouched while the active file was already rewritten. -/
def mark_hook_as_used (st : Store) (hook : HookRecord) (stamp : String)
    (saveActiveOk saveUsedOk : Bool) : Store :=
  let all_hooks := st.active
  let used := st.used
  let updated_active := all_hooks.filter (fun h => h.text != hook.text)
  let stamped : HookRecord := { hook with used_at := some stamp }
  let new_used := stamped :: used
  if saveActiveOk then
    if saveUsedOk then { active := updated_active, used := new_used }
    else { active := updated_active, used := used }
  else st

/-- The hook-selection step of `generate_video_internal` (server.py lines
211-227): capitalize the requested emotion, filter the active pool on
exact equality of the stored tag with the capitalized request, fall back
to the whole pool when the filter is empty, raise when the pool itself is
empty, and otherwise pick one candidate at random (`random.choice`,
modelled by the index `pick % length`). -/
def select_hook (all_hooks : List HookRecord) (emotion : String) (pick : Nat) :
    Except String HookRecord :=
  let target_emotion := py_capitalize emotion
  let candidates := all_hooks.filter (fun h => h.emotion == some target_emotion)
  let candidates2 := if candidates.isEmpty then all_hooks else candidates
  match candidates2.get? (pick % candidates2.length) with
  | none => .error "No hooks found in database"
  | some r => .ok r

/-- The `ffmpeg` invocation built in `generate_video_internal`
(server.py lines 246-256): the source file, the looped overlay image, the
scale dimensions of the filter graph, the `-t` cap, and the output path. -/
structure FfmpegCmd where
  input : String
  overlay : String
  width : Nat
  height : Nat
  t : ℚ
  output : String
deriving DecidableEq

/-- The environment of one pipeline run: the random choice index, the
`ffprobe` result (width, height, duration — already after the probe
fallback of `get_video_duration_and_size`), the external `ffmpeg` process
(`run cmd = true` iff it exits zero), the `os.urandom` hex values used for
the `used_at` stamp and the temporary/output filenames, and the success of
the two JSON writes inside `mark_hook_as_used`. -/
structure Env where
  pick : Nat
  probe : Nat × Nat × ℚ
  run : FfmpegCmd → Bool
  stamp : String
  overlayHex : String
  outHex : String
  saveActiveOk : Bool
  saveUsedOk : Bool

/-- `generate_video_internal` (server.py lines 209-270): select a hook,
probe the source, cap the duration at 60 seconds, render the overlay to a
temporary path, invoke `ffmpeg`, and only after a zero exit mark the hook
as used.  A non-zero `ffmpeg` exit raises (`subprocess.run(check=True)`)
before `mark_hook_as_used` is reached, so the store is unchanged on every
error path.  Returns the new store and either an error message or the
triple `(output_path, hook_text, output_filename)` of the Python code. -/
def generate_video_internal (filepath emotion : String) (st : Store) (env : Env) :
    Store × Except String (String × String × String) :=
  match select_hook st.active emotion env.pick with
  | .error e => (st, .error e)
  | .ok selected_hook =>
    let hook_text := selected_hook.text
    let w := env.probe.1
    let h := env.probe.2.1
    let duration := env.probe.2.2
    let max_duration : ℚ := min duration 60
    let temp_overlay_path := "uploads/overlay_" ++ env.overlayHex ++ ".png"
    let target_emotion := py_capitalize emotion
    let output_filename := "hook_" ++ target_emotion ++ "_" ++ env.outHex ++ ".mp4"
    let output_path := "generated_shorts/" ++ output_filename
    let cmd : FfmpegCmd :=
      { input := filepath, overlay := temp_overlay_path, width := w, height := h,
        t := max_duration, output := output_path }
    if env.run cmd then
      let st' := mark_hook_as_used st selected_hook env.stamp env.saveActiveOk env.saveUsedOk
      (st', .ok (output_path, hook_text, output_filename))
    else (st, .error "ffmpeg exited non-zero")

/-- The JSON body of a successful `/upload-video` response (server.py
lines 311-316). -/
structure UploadSuccess where
  status : String
  video_url : String
  hook_text : String
  emotion : String
deriving DecidableEq, Repr

/-- The `/upload-video` route (server.py lines 286-321) after the file has
been saved: run `generate_video_internal` and report either the success
JSON or a 500 error carrying the exception message. -/
def upload_video (filepath emotion : String) (st : Store) (env : Env) :
    Store × Except (String × Nat) UploadSuccess :=
  match generate_video_internal filepath emotion st env with
  | (st', .ok (_, hook_text, filename)) =>
    (st', .ok { status := "success", video_url := "/download/" ++ filename,
                hook_text := hook_text, emotion := py_capitalize emotion })
  | (st', .error e) => (st', .error (e, 500))

/-- One slot of a `/batch-upload` request (server.py lines 329-342):
`present` models `key_file in request.files and filename != ''`; `src` is
the saved upload path, `emotion` the matching form field, and `env` the
oracles of that item's pipeline run. -/
structure BatchItem where
  present : Bool
  src : String
  emotion : String
  env : Env

/-- The HTTP answer of `/batch-upload`: either the in-memory ZIP archive,
listed as its (entry name, source path) pairs in write order, or a JSON
error with an HTTP status code.  The code never reports a per-item
failure count to the caller. -/
inductive BatchResponse
  | zipFile (entries : List (String × String))
  | jsonError (msg : String) (code : Nat)
deriving DecidableEq

/-- The per-item loop of `batch_upload` (server.py lines 329-352): absent
items are skipped; a successful item appends `(out_name, output_path)` to
`generated_files`; a failing item is caught, logged server-side and the
loop continues with the next item. -/
def batch_loop : List BatchItem → Store → List (String × String) →
    Store × List (String × String)
  | [], st, acc => (st, acc)
  | it :: rest, st, acc =>
    if it.present then
      match generate_video_internal it.src it.emotion st it.env with
      | (st', .ok (output_path, _, out_name)) =>
        batch_loop rest st' (acc ++ [(out_name, output_path)])
      | (st', .error _) => batch_loop rest st' acc
    else batch_loop rest st acc

/-- The `/batch-upload` route (server.py lines 323-375): process the items
in order, and answer 500 if nothing succeeded, else the ZIP archive whose
entries follow the order of `generated_files`. -/
def batch_upload (items : List BatchItem) (st : Store) : Store × BatchResponse :=
  let r := batch_loop items st []
  if r.2.isEmpty then (r.1, .jsonError "No videos processed successfully" 500)
  else (r.1, .zipFile r.2)

/-!
### A model of `textwrap.fill` with its default options

`create_text_overlay` (server.py lines 160-162) wraps the hook text with
`textwrap.fill(text, width=30)`.  The CPython `TextWrapper` defaults
apply: `expand_tabs=True, tabsize=8, replace_whitespace=True,
drop_whitespace=True, break_long_words=True, break_on_hyphens=True`.
The character classes of the word-separation regular expression
(`\w`, the letter class, the word-punctuation class) are modelled at the
ASCII level; the whitespace class of `textwrap` is the literal string of
six characters tab, newline, vertical tab, form feed, carriage return and
space.
-/

/-- The `textwrap._whitespace` class. -/
def isPyWs (c : Char) : Bool :=
  c == ' ' || c == '\t' || c == '\n' || c == '\x0b' || c == '\x0c' || c == '\r'

/-- ASCII model of the regex class `\w`. -/
def isWordChar (c : Char) : Bool := c.isAlphanum || c == '_'

/-- ASCII model of the regex letter class `[^\d\W]`. -/
def isLetterChar (c : Char) : Bool := c.isAlpha

/-- ASCII model of the regex word-punctuation class. -/
def isWordPunct (c : Char) : Bool :=
  isWordChar c || c == '!' || c == '"' || c == '\'' || c == '&' ||
    c == '.' || c == ',' || c == '?'

/-- Python `str.expandtabs(tabsize)`: a tab advances the column to the
next multiple of `tabsize`; newline and carriage return reset the column. -/
def expandtabs : List Char → Nat → Nat → List Char
  | [], _, _ => []
  | c :: rest, tabsize, col =>
    if c == '\t' then
      if 0 < tabsize then
        let incr := tabsize - col % tabsize
        List.replicate incr ' ' ++ expandtabs rest tabsize (col + incr)
      else expandtabs rest tabsize col
    else if c == '\n' || c == '\r' then c :: expandtabs rest tabsize 0
    else c :: expandtabs rest tabsize (col + 1)

/-- `TextWrapper._munge_whitespace`: expand tabs, then turn every
`textwrap` whitespace character into a space. -/
def munge_whitespace (text : List Char) : List Char :=
  (expandtabs text 8 0).map (fun c => if isPyWs c then ' ' else c)

/-- Whether the character at index `i` satisfies `p` (out of range: no). -/
def charAt (s : List Char) (i : Nat) (p : Char → Bool) : Bool :=
  match s.get? i with
  | some c => p c
  | none => false

/-- Length of the maximal run of characters satisfying `p`. -/
def runLen (p : Char → Bool) : List Char → Nat
  | [] => 0
  | c :: rest => if p c then runLen p rest + 1 else 0

/-- Length of the whitespace run starting at index `i`. -/
def wsRunLenAt (s : List Char) (i : Nat) : Nat := runLen isPyWs (s.drop i)

/-- Length of the hyphen run starting at index `i`. -/
def hyRunLenAt (s : List Char) (i : Nat) : Nat := runLen (fun c => c == '-') (s.drop i)

/-- The em-dash alternative of `wordsep_re` matching at index `i`: a run
of at least two hyphens, preceded by a word-punctuation character and
followed by a word character. -/
def emdashAt (s : List Char) (i : Nat) : Bool :=
  charAt s i (fun c => c == '-') &&
  decide (1 ≤ i) && charAt s (i - 1) isWordPunct &&
  decide (2 ≤ hyRunLenAt s i) && charAt s (i + hyRunLenAt s i) isWordChar

/-- The hyphenated-word stop of the word alternative of `wordsep_re`: the
lazily grown word part ends with a consumed hyphen at index `k` whose
lookbehind is letter-letter-hyphen or letter-hyphen-letter-hyphen and
whose lookahead is letter, optional hyphen, letter. -/
def hyphenStop (s : List Char) (k : Nat) : Bool :=
  charAt s k (fun c => c == '-') &&
  ((decide (2 ≤ k) && charAt s (k - 2) isLetterChar && charAt s (k - 1) isLetterChar) ||
   (decide (3 ≤ k) && charAt s (k - 3) isLetterChar &&
      charAt s (k - 2) (fun c => c == '-') && charAt s (k - 1) isLetterChar)) &&
  (charAt s (k + 1) isLetterChar &&
    (charAt s (k + 2) isLetterChar ||
     (charAt s (k + 2) (fun c => c == '-') && charAt s (k + 3) isLetterChar)))

/-- The end-of-word stop: index `k` is the end of input or whitespace. -/
def wordEndStop (s : List Char) (k : Nat) : Bool :=
  match s.get? k with
  | none => true
  | some c => isPyWs c

/-- The em-dash lookahead stop: the word part ends right before an
em-dash run, the last consumed character being word punctuation. -/
def emdashStop (s : List Char) (k : Nat) : Bool :=
  decide (1 ≤ k) && charAt s (k - 1) isWordPunct &&
  charAt s k (fun c => c == '-') && decide (2 ≤ hyRunLenAt s k) &&
  charAt s (k + hyRunLenAt s k) isWordChar

/-- Lazy search for the end of the word alternative of `wordsep_re`,
starting at candidate end `k`; the three stop conditions are tried in the
order of the regex alternation. -/
def wordEnd (s : List Char) : Nat → Nat → Nat
  | 0, k => k
  | fuel + 1, k =>
    if hyphenStop s k then k + 1
    else if wordEndStop s k then k
    else if emdashStop s k then k
    else wordEnd s fuel (k + 1)

/-- The sublist of `s` from index `i` (inclusive) to `e` (exclusive). -/
def slice (s : List Char) (i e : Nat) : List Char := (s.drop i).take (e - i)

/-- The scanner of `wordsep_re`: at each position the regex alternation
matches a whitespace run, an em-dash run, or a word; the matches tile the
input, so the split chunks are exactly the matches. -/
def splitChunksAux (s : List Char) : Nat → Nat → List (List Char)
  | 0, _ => []
  | fuel + 1, i =>
    match s.get? i with
    | none => []
    | some c =>
      if isPyWs c then
        let e := i + wsRunLenAt s i
        slice s i e :: splitChunksAux s fuel e
      else if emdashAt s i then
        let e := i + hyRunLenAt s i
        slice s i e :: splitChunksAux s fuel e
      else
        let e := wordEnd s (s.length + 1) (i + 1)
        slice s i e :: splitChunksAux s fuel e

/-- `TextWrapper._split` with `break_on_hyphens=True`: split the munged
text into non-empty chunks. -/
def wordsep_split (s : List Char) : List (List Char) :=
  splitChunksAux s (s.length + 1) 0

/-- Whether a chunk is blank, i.e. `chunk.strip() == ''` in the Python
code (ASCII model of `str.strip`). -/
def isBlankChunk (cs : List Char) : Bool := cs.all isPyWs

/-- The greedy inner loop of `TextWrapper._wrap_chunks`: move chunks onto
the current line while the accumulated length stays within `width`. -/
def greedy_take (width : Nat) : List (List Char) → List (List Char) → Nat →
    List (List Char) × Nat × List (List Char)
  | [], cur, cur_len => (cur, cur_len, [])
  | ch :: rest, cur, cur_len =>
    if cur_len + ch.length ≤ width then
      greedy_take width rest (cur ++ [ch]) (cur_len + ch.length)
    else (cur, cur_len, ch :: rest)

/-- Python `chunk.rfind('-', 0, bound)`, as an optional index. -/
def rfind_hyphen (cs : List Char) (bound : Nat) : Option Nat :=
  (List.range (min bound cs.length)).reverse.find? (fun i => cs.get? i == some '-')

/-- `TextWrapper._handle_long_word` with `break_long_words=True` and
`break_on_hyphens=True`: chop the head chunk at the space left on the
current line, preferring a break just after the last hyphen that fits. -/
def handle_long_word (width cur_len : Nat) (ch : List Char)
    (rest cur : List (List Char)) : List (List Char) × List (List Char) :=
  let space_left := if width < 1 then 1 else width - cur_len
  let e :=
    if decide (space_left < ch.length) then
      match rfind_hyphen ch space_left with
      | some hy =>
        if decide (0 < hy) && (ch.take hy).any (fun c => !(c == '-')) then hy + 1
        else space_left
      | none => space_left
    else space_left
  (cur ++ [ch.take e], ch.drop e :: rest)

/-- One iteration of the outer loop of `TextWrapper._wrap_chunks` with the
default options (no indents, `drop_whitespace=True`): drop a leading blank
chunk unless this is the first line, fill greedily, break a too-long head
chunk, drop a trailing blank chunk; returns the chunks of the candidate
line and the remaining chunks. -/
def wrap_step (width : Nat) (ch0 : List Char) (rest0 : List (List Char))
    (linesEmpty : Bool) : List (List Char) × List (List Char) :=
  let chunks := if isBlankChunk ch0 && !linesEmpty then rest0 else ch0 :: rest0
  let g := greedy_take width chunks [] 0
  let hr :=
    match g.2.2 with
    | [] => (g.1, ([] : List (List Char)))
    | ch :: rest =>
      if decide (width < ch.length) then handle_long_word width g.2.1 ch rest g.1
      else (g.1, ch :: rest)
  let cur :=
    match hr.1.getLast? with
    | some last => if isBlankChunk last then hr.1.dropLast else hr.1
    | none => hr.1
  (cur, hr.2)

/-- The outer loop of `TextWrapper._wrap_chunks` with the default options
(`max_lines=None`), written with explicit fuel; one iteration builds one
candidate line. -/
def wrap_chunks_loop (width : Nat) : Nat → List (List Char) → List (List Char) →
    List (List Char)
  | 0, _, lines => lines
  | _ + 1, [], lines => lines
  | fuel + 1, ch0 :: rest0, lines =>
    let s := wrap_step width ch0 rest0 lines.isEmpty
    let lines2 := if s.1.isEmpty then lines else lines ++ [s.1.flatten]
    wrap_chunks_loop width fuel s.2 lines2

/-- A fuel bound for `wrap_chunks_loop`: every iteration either consumes a
chunk or shortens one. -/
def chunksMeasure (chunks : List (List Char)) : Nat :=
  chunks.length + (chunks.map List.length).sum

/-- `TextWrapper._wrap_chunks` with the default options. -/
def wrap_chunks (width : Nat) (chunks : List (List Char)) : List (List Char) :=
  wrap_chunks_loop width (chunksMeasure chunks + 1) chunks []

/-- `textwrap.wrap(text, width)` with the default options: the list of
output lines. -/
def wrap_text (text : String) (width : Nat) : List String :=
  (wrap_chunks width (wordsep_split (munge_whitespace text.data))).map String.mk

/-- `textwrap.fill(text, width)` with the default options. -/
def textwrap_fill (text : String) (width : Nat) : String :=
  String.intercalate "\n" (wrap_text text width)

/-- The wrap width of `create_text_overlay` (server.py line 161,
`max_chars = 30`). -/
def max_chars : Nat := 30

/-- The word-wrapped lines produced inside `create_text_overlay`
(server.py lines 160-162). -/
def create_text_overlay_lines (text : String) : List String :=
  wrap_text text max_chars

/-- The wrapped string drawn by `create_text_overlay` (server.py line
162, `textwrap.fill(text, width=max_chars)`). -/
def create_text_overlay_wrapped (text : String) : String :=
  textwrap_fill text max_chars

/-!
### Helper lemmas about the word wrapper
-/

theorem greedy_take_invariant (width : Nat) (chunks : List (List Char)) :
    ∀ (cur : List (List Char)) (cur_len : Nat),
      cur_len = (cur.map List.length).sum → cur_len ≤ width →
      (greedy_take width chunks cur cur_len).2.1 =
          ((greedy_take width chunks cur cur_len).1.map List.length).sum ∧
        (greedy_take width chunks cur cur_len).2.1 ≤ width := by
  induction chunks with
  | nil =>
    intro cur cur_len h hle
    simp only [greedy_take]
    exact ⟨h, hle⟩
  | cons ch rest ih =>
    intro cur cur_len h hle
    simp only [greedy_take]
    by_cases hc : cur_len + ch.length ≤ width
    · rw [if_pos hc]
      exact ih (cur ++ [ch]) (cur_len + ch.length)
        (by rw [h]; simp) hc
    · rw [if_neg hc]
      exact ⟨h, hle⟩

theorem rfind_hyphen_lt (cs : List Char) (bound i : Nat)
    (h : rfind_hyphen cs bound = some i) : i < bound := by
  unfold rfind_hyphen at h
  have hmem := List.mem_of_find?_eq_some h
  rw [List.mem_reverse] at hmem
  exact lt_of_lt_of_le (List.mem_range.mp hmem) (min_le_left _ _)

theorem handle_long_word_sum (width cur_len : Nat) (ch : List Char)
    (rest cur : List (List Char)) (hw : 1 ≤ width) (hle : cur_len ≤ width)
    (hsum : cur_len = (cur.map List.length).sum) :
    (((handle_long_word width cur_len ch rest cur).1.map List.length).sum) ≤ width := by
  unfold handle_long_word
  have hwlt : ¬ width < 1 := by omega
  rw [if_neg hwlt]
  dsimp only
  have key : ∀ e : Nat, e ≤ width - cur_len →
      (((cur ++ [ch.take e]).map List.length).sum) ≤ width := by
    intro e hee
    simp only [List.map_append, List.map_cons, List.map_nil, List.sum_append,
      List.sum_cons, List.sum_nil]
    have hte : (ch.take e).length ≤ e := by
      simp [List.length_take]
    omega
  apply key
  split
  · split
    · next hy hfind =>
      split
      · exact rfind_hyphen_lt ch (width - cur_len) hy hfind
      · exact le_refl _
    · exact le_refl _
  · exact le_refl _

theorem sum_map_dropLast_le (l : List (List Char)) :
    ((l.dropLast.map List.length).sum) ≤ ((l.map List.length).sum) := by
  induction l with
  | nil => simp
  | cons a t ih =>
    cases t with
    | nil => simp
    | cons b t2 =>
      show (a.length + (((b :: t2).dropLast.map List.length).sum)) ≤
        a.length + (((b :: t2).map List.length).sum)
      exact Nat.add_le_add_left ih _

theorem dropBlank_sum_le (l : List (List Char)) :
    (((match l.getLast? with
        | some last => if isBlankChunk last then l.dropLast else l
        | none => l).map List.length).sum) ≤ ((l.map List.length).sum) := by
  cases hlast : l.getLast? with
  | none => exact le_refl _
  | some last =>
    dsimp only
    split
    · exact sum_map_dropLast_le l
    · exact le_refl _

theorem wrap_step_sum_le (width : Nat) (hw : 1 ≤ width) (ch0 : List Char)
    (rest0 : List (List Char)) (b : Bool) :
    (((wrap_step width ch0 rest0 b).1.map List.length).sum) ≤ width := by
  unfold wrap_step
  dsimp only
  set chunks := if isBlankChunk ch0 && !b then rest0 else ch0 :: rest0 with hchunks
  have hg := greedy_take_invariant width chunks [] 0 rfl (Nat.zero_le _)
  refine le_trans (dropBlank_sum_le _) ?_
  split
  · rw [← hg.1]
    exact hg.2
  · split
    · exact handle_long_word_sum width _ _ _ _ hw hg.2 hg.1
    · rw [← hg.1]
      exact hg.2

theorem wrap_chunks_loop_le (width : Nat) (hw : 1 ≤ width) (fuel : Nat) :
    ∀ (chunks lines : List (List Char)),
      (∀ l ∈ lines, l.length ≤ width) →
      ∀ l ∈ wrap_chunks_loop width fuel chunks lines, l.length ≤ width := by
  induction fuel with
  | zero =>
    intro chunks lines hl
    simpa [wrap_chunks_loop] using hl
  | succ fuel ih =>
    intro chunks lines hl
    cases chunks with
    | nil => simpa [wrap_chunks_loop] using hl
    | cons ch0 rest0 =>
      rw [wrap_chunks_loop]
      apply ih
      intro l hm
      by_cases hcur : (wrap_step width ch0 rest0 lines.isEmpty).1.isEmpty
      · rw [if_pos hcur] at hm
        exact hl l hm
      · rw [if_neg hcur] at hm
        rcases List.mem_append.mp hm with h | h
        · exact hl l h
        · rw [List.mem_singleton] at h
          subst h
          rw [List.length_flatten]
          exact wrap_step_sum_le width hw ch0 rest0 lines.isEmpty

/-!
### Helper lemmas about the hook selector and the pipeline
-/

theorem select_hook_nil (emotion : String) (pick : Nat) :
    select_hook [] emotion pick = .error "No hooks found in database" := by
  simp [select_hook]

theorem select_hook_ok (hooks : List HookRecord) (emotion : String) (pick : Nat)
    (hne : hooks ≠ []) :
    ∃ r, select_hook hooks emotion pick = .ok r ∧ r ∈ hooks := by
  unfold select_hook
  dsimp only
  set cands := hooks.filter (fun h => h.emotion == some (py_capitalize emotion)) with hc
  set c2 := if cands.isEmpty then hooks else cands with hc2
  have hc2ne : c2 ≠ [] := by
    rw [hc2]; split
    · exact hne
    · next hf => simpa [List.isEmpty_iff] using hf
  have hlen : 0 < c2.length := List.length_pos.mpr hc2ne
  have hlt : pick % c2.length < c2.length := Nat.mod_lt _ hlen
  obtain ⟨r, hr⟩ : ∃ r, c2.get? (pick % c2.length) = some r := by
    rw [List.get?_eq_get hlt]; exact ⟨_, rfl⟩
  rw [hr]
  refine ⟨r, rfl, ?_⟩
  have hmem : r ∈ c2 := List.get?_mem hr
  by_cases hf : cands.isEmpty
  · rw [hc2, if_pos hf] at hmem; exact hmem
  · rw [hc2, if_neg hf, hc] at hmem; exact List.mem_of_mem_filter hmem

theorem select_hook_matching (hooks : List HookRecord) (emotion : String) (pick : Nat)
    (hne : hooks.filter (fun h => h.emotion == some (py_capitalize emotion)) ≠ []) :
    ∃ r, select_hook hooks emotion pick = .ok r ∧
      r ∈ hooks.filter (fun h => h.emotion == some (py_capitalize emotion)) := by
  unfold select_hook
  dsimp only
  set cands := hooks.filter (fun h => h.emotion == some (py_capitalize emotion)) with hc
  have hf : cands.isEmpty = false := by
    cases hemp : cands.isEmpty
    · rfl
    · exact absurd (List.isEmpty_iff.mp hemp) hne
  rw [hf]
  simp only [Bool.false_eq_true, if_false]
  have hlen : 0 < cands.length := List.length_pos.mpr hne
  have hlt : pick % cands.length < cands.length := Nat.mod_lt _ hlen
  obtain ⟨r, hr⟩ : ∃ r, cands.get? (pick % cands.length) = some r := by
    rw [List.get?_eq_get hlt]; exact ⟨_, rfl⟩
  rw [hr]
  exact ⟨r, rfl, List.get?_mem hr⟩

theorem select_hook_error (hooks : List HookRecord) (emotion : String) (pick : Nat)
    (e : String) (h : select_hook hooks emotion pick = .error e) : hooks = [] := by
  by_contra hne
  obtain ⟨r, hr, _⟩ := select_hook_ok hooks emotion pick hne
  rw [h] at hr
  exact Except.noConfusion hr

theorem generate_run_false (fp emotion : String) (st : Store) (env : Env)
    (h : ∀ c, env.run c = false) :
    ∃ e, generate_video_internal fp emotion st env = (st, .error e) := by
  unfold generate_video_internal
  cases hsel : select_hook st.active emotion env.pick with
  | error e => exact ⟨e, rfl⟩
  | ok r =>
    dsimp only
    rw [h]
    exact ⟨_, rfl⟩

theorem generate_run_true (fp emotion : String) (st : Store) (env : Env)
    (hrun : ∀ c, env.run c = true)
    (r : HookRecord) (hsel : select_hook st.active emotion env.pick = .ok r) :
    generate_video_internal fp emotion st env =
      (mark_hook_as_used st r env.stamp env.saveActiveOk env.saveUsedOk,
        Except.ok
          ("generated_shorts/" ++ ("hook_" ++ py_capitalize emotion ++ "_" ++ env.outHex ++ ".mp4"),
            r.text,
            "hook_" ++ py_capitalize emotion ++ "_" ++ env.outHex ++ ".mp4")) := by
  unfold generate_video_internal
  rw [hsel]
  dsimp only
  rw [hrun]
  rfl

theorem generate_persist_independent (fp emotion : String) (st : Store) (env : Env)
    (a u : Bool) :
    (generate_video_internal fp emotion st env).2 =
      (generate_video_internal fp emotion st
        { env with saveActiveOk := a, saveUsedOk := u }).2 := by
  unfold generate_video_internal
  cases hsel : select_hook st.active emotion env.pick with
  | error e => rfl
  | ok r =>
    dsimp only
    split <;> rfl

theorem upload_video_snd (fp emotion : String) (st : Store) (env : Env) :
    (upload_video fp emotion st env).2 =
      match (generate_video_internal fp emotion st env).2 with
      | .ok o =>
        .ok ⟨"success", "/download/" ++ o.2.2, o.2.1, py_capitalize emotion⟩
      | .error e => .error (e, 500) := by
  unfold upload_video
  cases hgen : generate_video_internal fp emotion st env with
  | mk st' res =>
    cases res with
    | ok o =>
      obtain ⟨o1, o2, o3⟩ := o
      rfl
    | error e => rfl

/-!
### The claims
-/

/-- C8: `load_hooks` and `load_used_hooks` never raise to the caller: an
absent or malformed backing file yields the empty sequence from
`load_hooks`, and an absent (or malformed) used-hooks file yields the
empty sequence from `load_used_hooks`. -/
theorem load_soft_fail :
    load_hooks FileState.absent = [] ∧
    load_hooks FileState.malformed = [] ∧
    load_used_hooks FileState.absent = [] ∧
    load_used_hooks FileState.malformed = [] :=
  ⟨rfl, rfl, rfl, rfl⟩

/-- C4: the selection of `generate_video_internal` follows the fallback
chain: an empty active pool fails with the EmptyCorpus error
`No hooks found in database`; a non-empty active pool always yields some
record of the pool (in particular when no record matches the requested
emotion); and an error is raised only for the empty pool. -/
theorem select_fallback_chain (hooks : List HookRecord) (emotion : String) (pick : Nat) :
    (hooks = [] → select_hook hooks emotion pick = .error "No hooks found in database") ∧
    (hooks ≠ [] → ∃ r, select_hook hooks emotion pick = .ok r ∧ r ∈ hooks) ∧
    (∀ e, select_hook hooks emotion pick = .error e → hooks = []) := by
  refine ⟨?_, select_hook_ok hooks emotion pick, select_hook_error hooks emotion pick⟩
  intro h
  subst h
  exact select_hook_nil emotion pick

/-- Witness for C4: a pool with a single `Happy` hook and the request
`angry` (no match) still yields that hook through the fallback. -/
theorem select_fallback_chain_witness :
    ∃ r, select_hook [⟨"t", some "Happy", none⟩] "angry" 0 = .ok r ∧
      r ∈ [(⟨"t", some "Happy", none⟩ : HookRecord)] :=
  (select_fallback_chain [⟨"t", some "Happy", none⟩] "angry" 0).2.1 (by simp)

/-- C3 counterexample: the claim promises case-insensitive, trimmed
comparison, but the code compares the stored tag verbatim against the
capitalized request.  With active pool
`[{text a, emotion HAPPY}, {text b, emotion Sad}]` and request `happy`,
the record `a` matches after the spec normalization, yet the code finds
no candidate (`HAPPY ≠ Happy`), falls back to the whole pool, and the
random draw 1 returns `b`, whose normalized emotion differs from the
normalized request. -/
theorem select_case_insensitive_cex :
    select_hook [⟨"a", some "HAPPY", none⟩, ⟨"b", some "Sad", none⟩] "happy" 1 =
      .ok ⟨"b", some "Sad", none⟩ ∧
    spec_normalize_emotion "HAPPY" = spec_normalize_emotion "happy" ∧
    spec_normalize_emotion "Sad" ≠ spec_normalize_emotion "happy" := by
  refine ⟨rfl, by decide, by decide⟩

/-- C3 amended: a record matches when its stored emotion tag equals
`emotion.capitalize()` exactly (the comparison is neither
case-insensitive on the stored tag nor trimmed); whenever at least one
active record matches in this sense, `select` returns a record of that
matching subset only. -/
theorem select_exact_match_subset (hooks : List HookRecord) (emotion : String) (pick : Nat)
    (hne : hooks.filter (fun h => h.emotion == some (py_capitalize emotion)) ≠ []) :
    ∃ r, select_hook hooks emotion pick = .ok r ∧
      r ∈ hooks.filter (fun h => h.emotion == some (py_capitalize emotion)) ∧
      r.emotion = some (py_capitalize emotion) := by
  obtain ⟨r, hr, hmem⟩ := select_hook_matching hooks emotion pick hne
  exact ⟨r, hr, hmem, eq_of_beq (List.mem_filter.mp hmem).2⟩

/-- Witness for the amended C3. -/
theorem select_exact_match_subset_witness :
    ∃ r, select_hook [⟨"a", some "Happy", none⟩] "happy" 0 = .ok r ∧
      r ∈ ([⟨"a", some "Happy", none⟩] : List HookRecord).filter
          (fun h => h.emotion == some (py_capitalize "happy")) ∧
      r.emotion = some (py_capitalize "happy") :=
  select_exact_match_subset [⟨"a", some "Happy", none⟩] "happy" 0 (by decide)

/-- C1 counterexample: `commit` removes EVERY active record whose text
equals the committed text, not only the first.  With two active records
of text `t`, both are removed and only one stamped copy enters the used
sequence, so the total record count drops from 2 to 1. -/
theorem commit_duplicate_text_cex :
    (⟨"t", some "General", none⟩ : HookRecord) ∈
      ([⟨"t", some "General", none⟩, ⟨"t", some "General", none⟩] : List HookRecord) ∧
    (mark_hook_as_used ⟨[⟨"t", some "General", none⟩, ⟨"t", some "General", none⟩], []⟩
        ⟨"t", some "General", none⟩ "s" true true).active = [] ∧
    (mark_hook_as_used ⟨[⟨"t", some "General", none⟩, ⟨"t", some "General", none⟩], []⟩
          ⟨"t", some "General", none⟩ "s" true true).active.length +
        (mark_hook_as_used ⟨[⟨"t", some "General", none⟩, ⟨"t", some "General", none⟩], []⟩
          ⟨"t", some "General", none⟩ "s" true true).used.length ≠
      ([⟨"t", some "General", none⟩, ⟨"t", some "General", none⟩] : List HookRecord).length +
        ([] : List HookRecord).length := by
  refine ⟨by decide, by decide, by decide⟩

/-- C1 amended: when the active pool holds exactly one record of the
committed text (the normal case under the uniqueness invariant of the
spec) and the stamp is fresh for the used pool, `commit` with both writes
succeeding removes exactly that record, places the freshly stamped hook
exactly once at the head of the used sequence, keeps every other active
record, and preserves the total active+used count. -/
theorem commit_unique_text (st : Store) (hook : HookRecord) (stamp : String)
    (hone : (st.active.filter (fun h => h.text == hook.text)).length = 1)
    (hfresh : ∀ r ∈ st.used, r.used_at ≠ some stamp) :
    (∀ r ∈ (mark_hook_as_used st hook stamp true true).active, r.text ≠ hook.text) ∧
    (mark_hook_as_used st hook stamp true true).used.head? =
      some { hook with used_at := some stamp } ∧
    (mark_hook_as_used st hook stamp true true).used.count
        { hook with used_at := some stamp } = 1 ∧
    (∀ r ∈ st.active, r.text ≠ hook.text →
      r ∈ (mark_hook_as_used st hook stamp true true).active) ∧
    (mark_hook_as_used st hook stamp true true).active.length +
        (mark_hook_as_used st hook stamp true true).used.length =
      st.active.length + st.used.length := by
  have hmark : mark_hook_as_used st hook stamp true true =
      ⟨st.active.filter (fun h => h.text != hook.text),
        { hook with used_at := some stamp } :: st.used⟩ := rfl
  refine ⟨?_, ?_, ?_, ?_, ?_⟩
  · intro r hr
    rw [hmark] at hr
    exact bne_iff_ne.mp (List.mem_filter.mp hr).2
  · rw [hmark]
    rfl
  · rw [hmark]
    dsimp only
    rw [List.count_cons_self]
    have h0 : st.used.count { hook with used_at := some stamp } = 0 :=
      List.count_eq_zero.mpr (fun hmem => hfresh _ hmem rfl)
    rw [h0]
  · intro r hr hne
    rw [hmark]
    exact List.mem_filter.mpr ⟨hr, bne_iff_ne.mpr hne⟩
  · rw [hmark]
    dsimp only
    have htotal : st.active.length =
        1 + (st.active.filter (fun h => h.text != hook.text)).length := by
      have h := List.length_eq_length_filter_add
        (l := st.active) (fun h => h.text == hook.text)
      rw [hone] at h
      exact h
    rw [List.length_cons]
    omega

/-- Witness for the amended C1, on a one-record pool and empty used
sequence. -/
theorem commit_unique_text_witness :
    (∀ r ∈ (mark_hook_as_used ⟨[⟨"t", some "Happy", none⟩], []⟩
        ⟨"t", some "Happy", none⟩ "s" true true).active,
      r.text ≠ (⟨"t", some "Happy", none⟩ : HookRecord).text) ∧
    (mark_hook_as_used ⟨[⟨"t", some "Happy", none⟩], []⟩
        ⟨"t", some "Happy", none⟩ "s" true true).used.head? =
      some { (⟨"t", some "Happy", none⟩ : HookRecord) with used_at := some "s" } ∧
    (mark_hook_as_used ⟨[⟨"t", some "Happy", none⟩], []⟩
        ⟨"t", some "Happy", none⟩ "s" true true).used.count
        { (⟨"t", some "Happy", none⟩ : HookRecord) with used_at := some "s" } = 1 ∧
    (∀ r ∈ (⟨[⟨"t", some "Happy", none⟩], []⟩ : Store).active,
      r.text ≠ (⟨"t", some "Happy", none⟩ : HookRecord).text →
      r ∈ (mark_hook_as_used ⟨[⟨"t", some "Happy", none⟩], []⟩
          ⟨"t", some "Happy", none⟩ "s" true true).active) ∧
    (mark_hook_as_used ⟨[⟨"t", some "Happy", none⟩], []⟩
          ⟨"t", some "Happy", none⟩ "s" true true).active.length +
        (mark_hook_as_used ⟨[⟨"t", some "Happy", none⟩], []⟩
          ⟨"t", some "Happy", none⟩ "s" true true).used.length =
      (⟨[⟨"t", some "Happy", none⟩], []⟩ : Store).active.length +
        (⟨[⟨"t", some "Happy", none⟩], []⟩ : Store).used.length :=
  commit_unique_text ⟨[⟨"t", some "Happy", none⟩], []⟩ ⟨"t", some "Happy", none⟩ "s"
    (by decide) (by simp)

/-- C2: when the external encoder fails (modelled by an `ffmpeg` oracle
that returns false), `generate_video_internal` raises before
`mark_hook_as_used` is ever reached: the hook store is returned
unchanged — the selected hook is still in the active sequence and the
used sequence is untouched — and the pipeline reports an error. -/
theorem encode_failure_preserves_store (fp emotion : String) (st : Store) (env : Env)
    (h : ∀ c, env.run c = false) :
    (generate_video_internal fp emotion st env).1 = st ∧
    (generate_video_internal fp emotion st env).1.active = st.active ∧
    (generate_video_internal fp emotion st env).1.used = st.used ∧
    ∃ e, (generate_video_internal fp emotion st env).2 = Except.error e := by
  obtain ⟨e, he⟩ := generate_run_false fp emotion st env h
  rw [he]
  exact ⟨rfl, rfl, rfl, e, rfl⟩

/-- Witness for C2: one active hook, encoder always failing. -/
theorem encode_failure_preserves_store_witness :
    (generate_video_internal "f" "happy" ⟨[⟨"t", some "Happy", none⟩], []⟩
        ⟨0, (1080, 1920, 50), fun _ => false, "s", "o", "x", true, true⟩).1 =
      (⟨[⟨"t", some "Happy", none⟩], []⟩ : Store) ∧
    (generate_video_internal "f" "happy" ⟨[⟨"t", some "Happy", none⟩], []⟩
        ⟨0, (1080, 1920, 50), fun _ => false, "s", "o", "x", true, true⟩).1.active =
      (⟨[⟨"t", some "Happy", none⟩], []⟩ : Store).active ∧
    (generate_video_internal "f" "happy" ⟨[⟨"t", some "Happy", none⟩], []⟩
        ⟨0, (1080, 1920, 50), fun _ => false, "s", "o", "x", true, true⟩).1.used =
      (⟨[⟨"t", some "Happy", none⟩], []⟩ : Store).used ∧
    ∃ e, (generate_video_internal "f" "happy" ⟨[⟨"t", some "Happy", none⟩], []⟩
        ⟨0, (1080, 1920, 50), fun _ => false, "s", "o", "x", true, true⟩).2 =
      Except.error e :=
  encode_failure_preserves_store "f" "happy" ⟨[⟨"t", some "Happy", none⟩], []⟩
    ⟨0, (1080, 1920, 50), fun _ => false, "s", "o", "x", true, true⟩ (fun _ => rfl)

/-- C5: the only duration ever handed to the external encoder is
`min(D, 60)` for the probed duration `D`: two encoder oracles that agree
on every command whose `-t` value is `min D 60` make the whole pipeline
agree, i.e. the encoder is never consulted at any other duration.  In
particular the cap sends `D = 45` to `45` and `D = 90` to `60`. -/
theorem encoder_duration_capped (fp emotion : String) (st : Store) (pick : Nat)
    (w h : Nat) (d : ℚ) (stamp ohex xhex : String) (aOk uOk : Bool)
    (run₁ run₂ : FfmpegCmd → Bool)
    (hagree : ∀ c : FfmpegCmd, c.t = min d 60 → run₁ c = run₂ c) :
    generate_video_internal fp emotion st
        ⟨pick, (w, h, d), run₁, stamp, ohex, xhex, aOk, uOk⟩ =
      generate_video_internal fp emotion st
        ⟨pick, (w, h, d), run₂, stamp, ohex, xhex, aOk, uOk⟩ ∧
    min (45 : ℚ) 60 = 45 ∧ min (90 : ℚ) 60 = 60 := by
  refine ⟨?_, by norm_num, by norm_num⟩
  unfold generate_video_internal
  cases hsel : select_hook st.active emotion pick with
  | error e => rfl
  | ok r =>
    dsimp only
    rw [hagree _ rfl]

/-- Witness for C5: with `D = 45`, an oracle that accepts exactly the
commands of duration 45 agrees with the constantly-true oracle. -/
theorem encoder_duration_capped_witness :
    generate_video_internal "f" "happy" ⟨[⟨"t", some "Happy", none⟩], []⟩
        ⟨0, (1080, 1920, 45), fun c => decide (c.t = 45), "s", "o", "x", true, true⟩ =
      generate_video_internal "f" "happy" ⟨[⟨"t", some "Happy", none⟩], []⟩
        ⟨0, (1080, 1920, 45), fun _ => true, "s", "o", "x", true, true⟩ ∧
    min (45 : ℚ) 60 = 45 ∧ min (90 : ℚ) 60 = 60 :=
  encoder_duration_capped "f" "happy" ⟨[⟨"t", some "Happy", none⟩], []⟩ 0
    1080 1920 45 "s" "o" "x" true true _ _
    (fun c hc => by rw [show c.t = 45 from by rw [hc]; norm_num]; norm_num)

/-- C9: a failure while persisting the commit (either JSON write) is
absorbed inside `mark_hook_as_used`: the HTTP response of `/upload-video`
is identical to the response with both writes succeeding, so a
store-persist failure never turns a successful composition into a
caller-visible error; and whenever the encoder succeeds on a non-empty
pool the response is the success JSON. -/
theorem persist_failure_invisible (fp emotion : String) (st : Store) (env : Env) :
    (upload_video fp emotion st env).2 =
      (upload_video fp emotion st
        { env with saveActiveOk := true, saveUsedOk := true }).2 ∧
    ((∀ c, env.run c = true) → st.active ≠ [] →
      ∃ r, (upload_video fp emotion st env).2 = Except.ok r ∧ r.status = "success") := by
  constructor
  · rw [upload_video_snd, upload_video_snd,
      generate_persist_independent fp emotion st env true true]
  · intro hrun hne
    obtain ⟨r, hr, _⟩ := select_hook_ok st.active emotion env.pick hne
    refine ⟨⟨"success",
      "/download/" ++ ("hook_" ++ py_capitalize emotion ++ "_" ++ env.outHex ++ ".mp4"),
      r.text, py_capitalize emotion⟩, ?_, rfl⟩
    rw [upload_video_snd, generate_run_true fp emotion st env hrun r hr]

/-- Witness for C9: encoder succeeding, both persists failing, the
response is still the success JSON. -/
theorem persist_failure_invisible_witness :
    (upload_video "f" "happy" ⟨[⟨"t", some "Happy", none⟩], []⟩
        ⟨0, (1080, 1920, 50), fun _ => true, "s", "o", "x", false, false⟩).2 =
      (upload_video "f" "happy" ⟨[⟨"t", some "Happy", none⟩], []⟩
        { (⟨0, (1080, 1920, 50), fun _ => true, "s", "o", "x", false, false⟩ : Env) with
          saveActiveOk := true, saveUsedOk := true }).2 ∧
    ∃ r, (upload_video "f" "happy" ⟨[⟨"t", some "Happy", none⟩], []⟩
        ⟨0, (1080, 1920, 50), fun _ => true, "s", "o", "x", false, false⟩).2 =
      Except.ok r ∧ r.status = "success" :=
  ⟨(persist_failure_invisible "f" "happy" ⟨[⟨"t", some "Happy", none⟩], []⟩
      ⟨0, (1080, 1920, 50), fun _ => true, "s", "o", "x", false, false⟩).1,
   (persist_failure_invisible "f" "happy" ⟨[⟨"t", some "Happy", none⟩], []⟩
      ⟨0, (1080, 1920, 50), fun _ => true, "s", "o", "x", false, false⟩).2
     (fun _ => rfl) (by simp)⟩

/-- C10: the `emotion` field of a successful `/upload-video` response is
always `emotion.capitalize()` of the request, independent of the hook
actually selected; concretely, on a pool whose only hook is tagged `Sad`,
requesting `happy` falls back to the whole pool, returns the `Sad` hook
text, and still reports emotion `Happy`. -/
theorem response_emotion_is_request (fp emotion : String) (st : Store) (env : Env) :
    (∀ r, (upload_video fp emotion st env).2 = Except.ok r →
      r.emotion = py_capitalize emotion) ∧
    ((upload_video "f" "happy" ⟨[⟨"b", some "Sad", none⟩], []⟩
        ⟨0, (1080, 1920, 50), fun _ => true, "s", "o", "x", true, true⟩).2 =
      Except.ok ⟨"success", "/download/hook_Happy_x.mp4", "b", "Happy"⟩ ∧
      (⟨"b", some "Sad", none⟩ : HookRecord).emotion ≠ some (py_capitalize "happy")) := by
  refine ⟨?_, rfl, by decide⟩
  intro r hr
  unfold upload_video at hr
  cases hsel : generate_video_internal fp emotion st env with
  | mk st' res =>
    rw [hsel] at hr
    cases res with
    | error e => simp at hr
    | ok o =>
      simp only at hr
      have := (Except.ok.injEq _ _).mp hr
      rw [← this]

/-- Witness for C10: the universal part applied to the concrete fallback
run. -/
theorem response_emotion_is_request_witness :
    (⟨"success", "/download/hook_Happy_x.mp4", "b", "Happy"⟩ : UploadSuccess).emotion =
      py_capitalize "happy" :=
  (response_emotion_is_request "f" "happy" ⟨[⟨"b", some "Sad", none⟩], []⟩
      ⟨0, (1080, 1920, 50), fun _ => true, "s", "o", "x", true, true⟩).1
    ⟨"success", "/download/hook_Happy_x.mp4", "b", "Happy"⟩ rfl

/-- C6 counterexample: no failure count is ever reported to the caller of
`/batch-upload`.  A three-item batch whose second item fails at the
encoder (one failure) produces a response byte-for-byte equal to the
response of a batch holding only the two succeeding items (zero
failures), so the claimed failure count of 1 is not part of the reply —
failures are only printed to the server log. -/
theorem batch_failure_count_cex :
    batch_upload
        [⟨true, "f1", "happy", ⟨0, (10, 20, 50), fun _ => true, "s1", "o1", "x1", true, true⟩⟩,
         ⟨true, "f2", "happy", ⟨0, (10, 20, 50), fun _ => false, "s2", "o2", "x2", true, true⟩⟩,
         ⟨true, "f3", "happy", ⟨0, (10, 20, 50), fun _ => true, "s3", "o3", "x3", true, true⟩⟩]
        ⟨[⟨"a1", some "Happy", none⟩, ⟨"b2", some "Happy", none⟩], []⟩ =
      batch_upload
        [⟨true, "f1", "happy", ⟨0, (10, 20, 50), fun _ => true, "s1", "o1", "x1", true, true⟩⟩,
         ⟨true, "f3", "happy", ⟨0, (10, 20, 50), fun _ => true, "s3", "o3", "x3", true, true⟩⟩,
         ⟨false, "f0", "x", ⟨0, (10, 20, 50), fun _ => true, "s0", "o0", "x0", true, true⟩⟩]
        ⟨[⟨"a1", some "Happy", none⟩, ⟨"b2", some "Happy", none⟩], []⟩ := by
  rfl

/-- C6 amended: a failing item does not abort the following items, and
the archive contains exactly the outputs of the succeeding items in input
order; but the caller receives no failure count — the 500 answer appears
only when nothing succeeded, and per-item failures are logged
server-side only.  For a batch of three present items where exactly item
2 fails at the encoder, the response is the archive of the outputs of
items 1 and 3, in that order. -/
theorem batch_continue_after_failure (st st1 st3 : Store) (i1 i2 i3 : BatchItem)
    (p1 t1 n1 p3 t3 n3 : String)
    (hp1 : i1.present = true) (hp2 : i2.present = true) (hp3 : i3.present = true)
    (h1 : generate_video_internal i1.src i1.emotion st i1.env = (st1, Except.ok (p1, t1, n1)))
    (h2 : ∀ c, i2.env.run c = false)
    (h3 : generate_video_internal i3.src i3.emotion st1 i3.env = (st3, Except.ok (p3, t3, n3))) :
    batch_upload [i1, i2, i3] st =
      (st3, BatchResponse.zipFile [(n1, p1), (n3, p3)]) := by
  obtain ⟨e, he⟩ := generate_run_false i2.src i2.emotion st1 i2.env h2
  simp only [batch_upload, batch_loop, hp1, hp2, hp3, if_true, h1, he, h3,
    List.nil_append, List.isEmpty_cons]
  rfl

/-- Witness for the amended C6, on a two-hook pool: item 1 consumes the
first hook, item 2 fails at the encoder and leaves the store unchanged,
item 3 consumes the second hook; the archive holds the outputs of items
1 and 3 in input order. -/
theorem batch_continue_after_failure_witness :
    batch_upload
        [⟨true, "f1", "happy", ⟨0, (10, 20, 50), fun _ => true, "s1", "o1", "x1", true, true⟩⟩,
         ⟨true, "f2", "happy", ⟨0, (10, 20, 50), fun _ => false, "s2", "o2", "x2", true, true⟩⟩,
         ⟨true, "f3", "happy", ⟨0, (10, 20, 50), fun _ => true, "s3", "o3", "x3", true, true⟩⟩]
        ⟨[⟨"a1", some "Happy", none⟩, ⟨"b2", some "Happy", none⟩], []⟩ =
      (⟨[], [⟨"b2", some "Happy", some "s3"⟩, ⟨"a1", some "Happy", some "s1"⟩]⟩,
        BatchResponse.zipFile
          [("hook_Happy_x1.mp4", "generated_shorts/hook_Happy_x1.mp4"),
           ("hook_Happy_x3.mp4", "generated_shorts/hook_Happy_x3.mp4")]) :=
  batch_continue_after_failure
    ⟨[⟨"a1", some "Happy", none⟩, ⟨"b2", some "Happy", none⟩], []⟩
    ⟨[⟨"b2", some "Happy", none⟩], [⟨"a1", some "Happy", some "s1"⟩]⟩
    ⟨[], [⟨"b2", some "Happy", some "s3"⟩, ⟨"a1", some "Happy", some "s1"⟩]⟩
    ⟨true, "f1", "happy", ⟨0, (10, 20, 50), fun _ => true, "s1", "o1", "x1", true, true⟩⟩
    ⟨true, "f2", "happy", ⟨0, (10, 20, 50), fun _ => false, "s2", "o2", "x2", true, true⟩⟩
    ⟨true, "f3", "happy", ⟨0, (10, 20, 50), fun _ => true, "s3", "o3", "x3", true, true⟩⟩
    "generated_shorts/hook_Happy_x1.mp4" "a1" "hook_Happy_x1.mp4"
    "generated_shorts/hook_Happy_x3.mp4" "b2" "hook_Happy_x3.mp4"
    rfl rfl rfl rfl (fun _ => rfl) rfl

/-- C7 counterexample: `textwrap.fill` is called with its default options,
and the default `break_long_words=True` SPLITS a token longer than the
width instead of emitting it verbatim: a single unbreakable token of 40
characters wrapped at width 30 is broken into a 30-character line and a
10-character line, and no output line carries the token verbatim. -/
theorem overlay_long_token_split_cex :
    create_text_overlay_lines (String.mk (List.replicate 40 'a')) =
      [String.mk (List.replicate 30 'a'), String.mk (List.replicate 10 'a')] ∧
    String.mk (List.replicate 40 'a') ∉
      create_text_overlay_lines (String.mk (List.replicate 40 'a')) := by
  constructor
  · decide
  · decide

/-- C7 amended: word-wrapping to the fixed width of 30 characters
produces no output line longer than 30 characters, without exception: a
token longer than the width is not emitted verbatim but broken into
pieces of at most the width (default `break_long_words=True`). -/
theorem overlay_lines_within_width (text : String) :
    ∀ l ∈ create_text_overlay_lines text, l.length ≤ max_chars := by
  intro l hm
  unfold create_text_overlay_lines wrap_text wrap_chunks at hm
  rcases List.mem_map.mp hm with ⟨cs, hcs, rfl⟩
  exact wrap_chunks_loop_le max_chars (by decide) _ _ _ (by simp) cs hcs

/-- Witness for the amended C7. -/
theorem overlay_lines_within_width_witness :
    ("hello" : String).length ≤ max_chars :=
  overlay_lines_within_width "hello" "hello" (by decide)

end Automation
